import Mathlib

/-!
# Proposal notifier: the reconciliation cycle of `main.go`

A shallow embedding of `processProposals`, `fetchProposals`, `storeProposal` and
`sendTelegramNotification` from `main.go`, with the Redis database as an explicit
key-value state and every call to an external client (HTTP, Redis, Telegram, the
logger) recorded in a chronological trace of events.

The outcome of each external call is an input of the model: for every iteration of the
loop a `Faults` record says whether `rdb.Exists`, `rdb.Set` and `bot.Send` return an error
in that iteration.
-/

namespace ProposalBot

/-! ## Data model -/

/-- A Go `error`, represented by the text that `%v` prints for it. -/
abbrev Error := String

/-- The anonymous struct `Proposal.Content`. -/
structure ProposalContent where
  Title : String
  Description : String
deriving DecidableEq, Repr

/-- The struct `Proposal`. -/
structure Proposal where
  ProposalID : String
  Content : ProposalContent
deriving DecidableEq, Repr

/-- The struct `ProposalResponse`. -/
structure ProposalResponse where
  Proposals : List Proposal
deriving DecidableEq, Repr

/-- The anonymous struct `Config.API`. -/
structure APIConfig where
  URL : String
deriving DecidableEq, Repr

/-- The anonymous struct `Config.Explorer`. -/
structure ExplorerConfig where
  URL : String
deriving DecidableEq, Repr

/-- The anonymous struct `Config.Redis`. -/
structure RedisConfig where
  Addr : String
  Password : String
  DBIndex : Int
deriving DecidableEq, Repr

/-- The anonymous struct `Config.Telegram`. -/
structure TelegramConfig where
  BotToken : String
  ChatID : Int
deriving DecidableEq, Repr

/-- The anonymous struct `Config.Ticker`. -/
structure TickerConfig where
  Interval : String
deriving DecidableEq, Repr

/-- The struct `Config`. -/
structure Config where
  API : APIConfig
  Explorer : ExplorerConfig
  Redis : RedisConfig
  Telegram : TelegramConfig
  Ticker : TickerConfig
deriving DecidableEq, Repr

/-! ## External collaborators -/

/-- The contents of the Redis database behind `rdb`: the value held under each key, if any. -/
abbrev Store := String → Option String

/-- One observable action of a cycle, in the order the program performs them.
`sendMsg` records the call `bot.Send(msg)` made by `sendTelegramNotification` for
`proposal`, with the chat id and text of `msg` and the error `bot.Send` returned. -/
inductive Event where
  | log (line : String)
  | existsCmd (key : String) (res : Except Error Int)
  | setCmd (key : String) (value : String) (err : Option Error)
  | sendMsg (proposal : Proposal) (chatID : Int) (text : String) (err : Option Error)
deriving Repr

/-- The outcomes of the external calls of one loop iteration: the error (if any) returned by
`rdb.Exists`, by `rdb.Set` and by `bot.Send` when that call is made in the iteration. -/
structure Faults where
  existsErr : Option Error
  setErr : Option Error
  sendErr : Option Error
deriving DecidableEq, Repr

/-- The network and decoder behind `fetchProposals`: `get url` is the outcome of
`http.Get(url)`, an error or a response whose body `io.ReadAll` reads to an error or to its
bytes; `unmarshal` is `json.Unmarshal` into a `ProposalResponse`. -/
structure HttpEnv where
  get : String → Except Error (Except Error String)
  unmarshal : String → Except Error ProposalResponse

/-- Everything outside the program that a cycle depends on: the network, `json.Marshal` on a
`Proposal`, and the outcome of the client calls of each loop iteration (iteration `0` first). -/
structure Env where
  net : HttpEnv
  marshal : Proposal → Except Error String
  faults : Nat → Faults

/-- The call `rdb.Exists(ctx, key).Result()`: an error, or the number of the given keys that
exist (`1` or `0` for one key). The command does not change the database. -/
def rdbExists (rdb : Store) (fault : Option Error) (key : String) : Except Error Int :=
  match fault with
  | some err => .error err
  | none => .ok (if (rdb key).isSome then 1 else 0)

/-- The call `rdb.Set(ctx, key, value, 0).Err()`: on success the value is stored under the key
with no expiration, replacing what was there; on error the database is left as it was. -/
def rdbSet (rdb : Store) (fault : Option Error) (key value : String) : Option Error × Store :=
  match fault with
  | some err => (some err, rdb)
  | none => (none, fun k => if k = key then some value else rdb k)

/-! ## The program -/

/-- The function `fetchProposals`. -/
def fetchProposals (net : HttpEnv) (apiURL : String) : Except Error (List Proposal) :=
  match net.get apiURL with
  | .error err => .error err
  | .ok resp =>
    match resp with
    | .error err => .error err
    | .ok body =>
      match net.unmarshal body with
      | .error err => .error err
      | .ok proposalResp => .ok proposalResp.Proposals

/-- The function `storeProposal`: the returned error, the database afterwards and the
commands issued. -/
def storeProposal (marshal : Proposal → Except Error String) (rdb : Store)
    (setFault : Option Error) (key : String) (proposal : Proposal) :
    Option Error × Store × List Event :=
  match marshal proposal with
  | .error err => (some err, rdb, [])
  | .ok proposalJSON =>
    let r := rdbSet rdb setFault key proposalJSON
    (r.1, r.2, [Event.setCmd key proposalJSON r.1])

/-- The text built by `fmt.Sprintf` in `sendTelegramNotification`. -/
def notificationText (proposal : Proposal) (expUrl : String) : String :=
  "New Proposal:\nID: " ++ proposal.ProposalID ++ "\nTitle: " ++ proposal.Content.Title ++
    "\nDescription: " ++ proposal.Content.Description ++ "\nExplorer: " ++ expUrl ++ "/" ++
    proposal.ProposalID

/-- The function `sendTelegramNotification`: the events it produces. -/
def sendTelegramNotification (sendFault : Option Error) (chatID : Int) (proposal : Proposal)
    (expUrl : String) : List Event :=
  let message := notificationText proposal expUrl
  match sendFault with
  | some err =>
    [Event.sendMsg proposal chatID message (some err),
     Event.log ("Error sending Telegram message: " ++ err)]
  | none => [Event.sendMsg proposal chatID message none]

/-- The store key of a proposal id: `fmt.Sprintf("proposal:%s", id)`. -/
def proposalKey (id : String) : String := "proposal:" ++ id

/-- The body of the `for` loop of `processProposals`, run for `proposal` on the database `rdb`
with the client outcomes `f`: the database afterwards and the events of the iteration. -/
def loopBody (marshal : Proposal → Except Error String) (config : Config) (f : Faults)
    (proposal : Proposal) (rdb : Store) : Store × List Event :=
  let key := proposalKey proposal.ProposalID
  match rdbExists rdb f.existsErr key with
  | .error err =>
    (rdb, [Event.existsCmd key (.error err), Event.log ("Error checking Redis: " ++ err)])
  | .ok n =>
    if n = 0 then
      match storeProposal marshal rdb f.setErr key proposal with
      | (some err, rdb1, evs) =>
        (rdb1, Event.existsCmd key (.ok n) :: evs ++
          [Event.log ("Error storing proposal: " ++ err)])
      | (none, rdb1, evs) =>
        (rdb1, Event.existsCmd key (.ok n) :: evs ++
          sendTelegramNotification f.sendErr config.Telegram.ChatID proposal
            config.Explorer.URL)
    else
      match storeProposal marshal rdb f.setErr key proposal with
      | (some err, rdb1, evs) =>
        (rdb1, Event.existsCmd key (.ok n) :: evs ++
          [Event.log ("Error updating proposal: " ++ err)])
      | (none, rdb1, evs) => (rdb1, Event.existsCmd key (.ok n) :: evs)

/-- The `for` loop of `processProposals` over the fetched proposals, in order; `faults 0`
holds the client outcomes of the first iteration, `faults 1` of the second, and so on. -/
def loop (marshal : Proposal → Except Error String) (config : Config) :
    (Nat → Faults) → List Proposal → Store → Store × List Event
  | _, [], rdb => (rdb, [])
  | faults, proposal :: rest, rdb =>
    let r := loopBody marshal config (faults 0) proposal rdb
    let rs := loop marshal config (fun i => faults (i + 1)) rest r.1
    (rs.1, r.2 ++ rs.2)

/-- The function `processProposals`: one cycle, from the database `rdb` to the database
afterwards and the trace of the cycle. -/
def processProposals (env : Env) (config : Config) (rdb : Store) : Store × List Event :=
  match fetchProposals env.net config.API.URL with
  | .error err =>
    (rdb, [Event.log "Call API", Event.log ("Error fetching proposals: " ++ err)])
  | .ok proposals =>
    let r := loop env.marshal config env.faults proposals rdb
    (r.1, Event.log "Call API" :: r.2)

/-! ## Observations on a trace -/

/-- The proposal a `bot.Send` event was made for. -/
def Event.notified : Event → Option Proposal
  | .sendMsg proposal _ _ _ => some proposal
  | _ => none

/-- The proposals for which a notification was sent, in the order of sending. -/
def notifications (trace : List Event) : List Proposal :=
  trace.filterMap Event.notified

/-- The number of notifications in a trace that carry the proposal id `id`. -/
def notifiedCount (trace : List Event) (id : String) : Nat :=
  (notifications trace).countP (fun p => decide (p.ProposalID = id))

/-- An event is a Redis command (`Exists` or `Set`) or a `bot.Send`. -/
def Event.isClientCall : Event → Bool
  | .log _ => false
  | _ => true

/-- No failure in any call of the iteration. -/
def noFaults : Faults := ⟨none, none, none⟩

/-- Every store operation of a cycle over the fetched list `l` succeeds: in each of its
iterations neither `rdb.Exists` nor `rdb.Set` returns an error, and `json.Marshal` succeeds on
every fetched proposal. -/
def StoreOpsSucceed (marshal : Proposal → Except Error String) (faults : Nat → Faults)
    (l : List Proposal) : Prop :=
  (∀ i, i < l.length → (faults i).existsErr = none ∧ (faults i).setErr = none) ∧
    ∀ p ∈ l, ∃ js, marshal p = .ok js

/-- The last proposal of the list `l` whose id is `id`. -/
def lastWithID (id : String) (l : List Proposal) : Option Proposal :=
  (l.filter (fun p => decide (p.ProposalID = id))).getLast?

/-- The database before iteration `i` of the loop over `l` started on `rdb`: the database
left by the first `i` iterations. -/
def storeBefore (marshal : Proposal → Except Error String) (config : Config)
    (faults : Nat → Faults) (l : List Proposal) (rdb : Store) (i : Nat) : Store :=
  (loop marshal config faults (l.take i) rdb).1

/-! ## Sample data -/

/-- A configuration. -/
def sampleConfig : Config :=
  ⟨⟨"https://api.example/proposals"⟩, ⟨"https://explorer.example/proposal"⟩,
    ⟨"localhost:6379", "", 0⟩, ⟨"token", 42⟩, ⟨"5m"⟩⟩

/-- What `json.Marshal` yields on a proposal whose strings need no escaping. -/
def sampleMarshal (p : Proposal) : Except Error String :=
  .ok ("\x7b\"proposal_id\":\"" ++ p.ProposalID ++ "\",\"content\":\x7b\"title\":\"" ++
    p.Content.Title ++ "\",\"description\":\"" ++ p.Content.Description ++ "\"\x7d\x7d")

/-- A database with no key. -/
def emptyStore : Store := fun _ => none

/-- An environment whose feed answers with the list `l` and whose client calls behave as
`faults` says. -/
def sampleEnv (l : List Proposal) (faults : Nat → Faults) : Env :=
  ⟨⟨fun _ => .ok (.ok ""), fun _ => .ok ⟨l⟩⟩, sampleMarshal, faults⟩

/-- An environment whose feed cannot be reached. -/
def unreachableEnv : Env :=
  ⟨⟨fun _ => .error "connection refused", fun _ => .ok ⟨[]⟩⟩, sampleMarshal, fun _ => noFaults⟩

/-- Proposal 1 as first published. -/
def proposalOne : Proposal := ⟨"1", ⟨"T1", "D1"⟩⟩

/-- Proposal 1 after an edit of its description. -/
def proposalOneEdited : Proposal := ⟨"1", ⟨"T1", "D2"⟩⟩

/-- Proposal 2. -/
def proposalTwo : Proposal := ⟨"2", ⟨"T2", "D2"⟩⟩

/-- Outcomes in which `rdb.Set` fails in the first iteration and nothing else fails. -/
def setFailsFirst : Nat → Faults :=
  fun i => if i = 0 then ⟨none, some "i/o timeout", none⟩ else noFaults

/-- Outcomes in which `rdb.Exists` fails in the first iteration and nothing else fails. -/
def existsFailsFirst : Nat → Faults :=
  fun i => if i = 0 then ⟨some "connection refused", none, none⟩ else noFaults

/-- Outcomes with no failure at all. -/
def neverFails : Nat → Faults := fun _ => noFaults

/-! ## The program on a Redis whose replies can be lost

The client can return an error for a `SET` that the server has carried out (the reply is
lost on the way back). The definitions below run the same program with that possibility:
each iteration also says whether a failed `rdb.Set` was applied all the same. -/

namespace Lossy

/-- The outcomes of the external calls of one loop iteration, as in `Faults`, together with
`setApplied`: whether the server carried out an `rdb.Set` that returned an error. -/
structure Outcomes where
  existsErr : Option Error
  setErr : Option Error
  setApplied : Bool
  sendErr : Option Error
deriving DecidableEq, Repr

/-- Everything outside the program that a cycle depends on. -/
structure Env where
  net : HttpEnv
  marshal : Proposal → Except Error String
  outcomes : Nat → Outcomes

/-- The call `rdb.Set(ctx, key, value, 0).Err()`: on success the value is stored under the key
with no expiration; on error the value is stored or not, as `applied` says. -/
def rdbSet (rdb : Store) (fault : Option Error) (applied : Bool) (key value : String) :
    Option Error × Store :=
  match fault with
  | some err => (some err, if applied then fun k => if k = key then some value else rdb k else rdb)
  | none => (none, fun k => if k = key then some value else rdb k)

/-- The function `storeProposal`. -/
def storeProposal (marshal : Proposal → Except Error String) (rdb : Store)
    (setFault : Option Error) (applied : Bool) (key : String) (proposal : Proposal) :
    Option Error × Store × List Event :=
  match marshal proposal with
  | .error err => (some err, rdb, [])
  | .ok proposalJSON =>
    let r := rdbSet rdb setFault applied key proposalJSON
    (r.1, r.2, [Event.setCmd key proposalJSON r.1])

/-- The body of the `for` loop of `processProposals`. -/
def loopBody (marshal : Proposal → Except Error String) (config : Config) (f : Outcomes)
    (proposal : Proposal) (rdb : Store) : Store × List Event :=
  let key := proposalKey proposal.ProposalID
  match rdbExists rdb f.existsErr key with
  | .error err =>
    (rdb, [Event.existsCmd key (.error err), Event.log ("Error checking Redis: " ++ err)])
  | .ok n =>
    if n = 0 then
      match storeProposal marshal rdb f.setErr f.setApplied key proposal with
      | (some err, rdb1, evs) =>
        (rdb1, Event.existsCmd key (.ok n) :: evs ++
          [Event.log ("Error storing proposal: " ++ err)])
      | (none, rdb1, evs) =>
        (rdb1, Event.existsCmd key (.ok n) :: evs ++
          sendTelegramNotification f.sendErr config.Telegram.ChatID proposal
            config.Explorer.URL)
    else
      match storeProposal marshal rdb f.setErr f.setApplied key proposal with
      | (some err, rdb1, evs) =>
        (rdb1, Event.existsCmd key (.ok n) :: evs ++
          [Event.log ("Error updating proposal: " ++ err)])
      | (none, rdb1, evs) => (rdb1, Event.existsCmd key (.ok n) :: evs)

/-- The `for` loop of `processProposals`; `outcomes 0` belongs to the first iteration. -/
def loop (marshal : Proposal → Except Error String) (config : Config) :
    (Nat → Outcomes) → List Proposal → Store → Store × List Event
  | _, [], rdb => (rdb, [])
  | outcomes, proposal :: rest, rdb =>
    let r := loopBody marshal config (outcomes 0) proposal rdb
    let rs := loop marshal config (fun i => outcomes (i + 1)) rest r.1
    (rs.1, r.2 ++ rs.2)

/-- The function `processProposals`. -/
def processProposals (env : Env) (config : Config) (rdb : Store) : Store × List Event :=
  match fetchProposals env.net config.API.URL with
  | .error err =>
    (rdb, [Event.log "Call API", Event.log ("Error fetching proposals: " ++ err)])
  | .ok proposals =>
    let r := loop env.marshal config env.outcomes proposals rdb
    (r.1, Event.log "Call API" :: r.2)

/-- The database before iteration `i` of the loop over `l` started on `rdb`. -/
def storeBefore (marshal : Proposal → Except Error String) (config : Config)
    (outcomes : Nat → Outcomes) (l : List Proposal) (rdb : Store) (i : Nat) : Store :=
  (loop marshal config outcomes (l.take i) rdb).1

/-- The outcomes of `f`, a failed `rdb.Set` leaving the database as it was. -/
def ofFaults (f : Faults) : Outcomes := ⟨f.existsErr, f.setErr, false, f.sendErr⟩

/-- An environment whose feed answers with the list `l`. -/
def sampleEnv (l : List Proposal) (outcomes : Nat → Outcomes) : Env :=
  ⟨⟨fun _ => .ok (.ok ""), fun _ => .ok ⟨l⟩⟩, sampleMarshal, outcomes⟩

end Lossy

/-! ## Lemmas on one iteration -/

theorem proposalKey_inj {a b : String} (h : proposalKey a = proposalKey b) : a = b := by
  unfold proposalKey at h
  have := congrArg String.data h
  simp only [String.data_append, List.append_cancel_left_eq] at this
  exact String.ext this

theorem notifications_append (a b : List Event) :
    notifications (a ++ b) = notifications a ++ notifications b := by
  simp [notifications, List.filterMap_append]

theorem notifiedCount_append (a b : List Event) (id : String) :
    notifiedCount (a ++ b) id = notifiedCount a id + notifiedCount b id := by
  simp [notifiedCount, notifications_append, List.countP_append]

theorem notifications_send (e : Option Error) (chatID : Int) (p : Proposal) (u : String) :
    notifications (sendTelegramNotification e chatID p u) = [p] := by
  cases e <;> simp [sendTelegramNotification, notifications, Event.notified]

/-- One iteration either leaves the database as it was and notifies nobody (some store
operation failed), or all its store operations succeeded, the serialized proposal is now
stored under its key, every other key is untouched, and the proposal is notified exactly
when its key was absent. -/
theorem loopBody_cases (marshal : Proposal → Except Error String) (config : Config)
    (f : Faults) (p : Proposal) (db : Store) :
    ((loopBody marshal config f p db).1 = db ∧
        notifications (loopBody marshal config f p db).2 = [] ∧
        ¬ (f.existsErr = none ∧ f.setErr = none ∧ ∃ js, marshal p = .ok js)) ∨
    (∃ js, marshal p = .ok js ∧ f.existsErr = none ∧ f.setErr = none ∧
        (loopBody marshal config f p db).1 =
          (fun k => if k = proposalKey p.ProposalID then some js else db k) ∧
        Event.setCmd (proposalKey p.ProposalID) js none ∈ (loopBody marshal config f p db).2 ∧
        notifications (loopBody marshal config f p db).2 =
          if (db (proposalKey p.ProposalID)).isSome then [] else [p]) := by
  cases hE : f.existsErr with
  | some e =>
    left
    simp [loopBody, rdbExists, hE, notifications, Event.notified]
  | none =>
    cases hM : marshal p with
    | error e =>
      left
      cases hD : db (proposalKey p.ProposalID) <;>
        simp [loopBody, rdbExists, hE, hD, storeProposal, hM, notifications, Event.notified]
    | ok js =>
      cases hS : f.setErr with
      | some e =>
        left
        cases hD : db (proposalKey p.ProposalID) <;>
          simp [loopBody, rdbExists, hE, hD, storeProposal, hM, rdbSet, hS, notifications,
            Event.notified]
      | none =>
        right
        refine ⟨js, rfl, rfl, rfl, ?_⟩
        cases hD : db (proposalKey p.ProposalID) with
        | none =>
          have hn := notifications_send f.sendErr config.Telegram.ChatID p config.Explorer.URL
          simp only [notifications] at hn
          simp [loopBody, rdbExists, hE, hD, storeProposal, hM, rdbSet, hS, notifications,
            Event.notified, hn]
        | some v =>
          simp [loopBody, rdbExists, hE, hD, storeProposal, hM, rdbSet, hS, notifications,
            Event.notified]

theorem loopBody_existsErr (marshal : Proposal → Except Error String) (config : Config)
    (f : Faults) (p : Proposal) (db : Store) (e : Error) (hE : f.existsErr = some e) :
    loopBody marshal config f p db =
      (db, [Event.existsCmd (proposalKey p.ProposalID) (.error e),
            Event.log ("Error checking Redis: " ++ e)]) := by
  simp [loopBody, rdbExists, hE]

theorem loopBody_absent_ok (marshal : Proposal → Except Error String) (config : Config)
    (f : Faults) (p : Proposal) (db : Store) (js : String) (hE : f.existsErr = none)
    (hD : db (proposalKey p.ProposalID) = none) (hM : marshal p = .ok js)
    (hS : f.setErr = none) :
    loopBody marshal config f p db =
      (fun k => if k = proposalKey p.ProposalID then some js else db k,
        Event.existsCmd (proposalKey p.ProposalID) (.ok 0) ::
        Event.setCmd (proposalKey p.ProposalID) js none ::
        sendTelegramNotification f.sendErr config.Telegram.ChatID p config.Explorer.URL) := by
  simp [loopBody, rdbExists, hE, hD, storeProposal, hM, rdbSet, hS]

theorem loop_cons (marshal : Proposal → Except Error String) (config : Config)
    (faults : Nat → Faults) (p : Proposal) (ps : List Proposal) (db : Store) :
    loop marshal config faults (p :: ps) db =
      ((loop marshal config (fun i => faults (i + 1)) ps
          (loopBody marshal config (faults 0) p db).1).1,
        (loopBody marshal config (faults 0) p db).2 ++
          (loop marshal config (fun i => faults (i + 1)) ps
            (loopBody marshal config (faults 0) p db).1).2) := rfl

/-- The loop over `l1 ++ l2` is the loop over `l1` followed by the loop over `l2`. -/
theorem loop_append (marshal : Proposal → Except Error String) (config : Config)
    (l1 l2 : List Proposal) (faults : Nat → Faults) (db : Store) :
    loop marshal config faults (l1 ++ l2) db =
      ((loop marshal config (fun i => faults (i + l1.length)) l2
          (loop marshal config faults l1 db).1).1,
        (loop marshal config faults l1 db).2 ++
          (loop marshal config (fun i => faults (i + l1.length)) l2
            (loop marshal config faults l1 db).1).2) := by
  induction l1 generalizing faults db with
  | nil => simp [loop]
  | cons p ps ih =>
    simp only [List.cons_append, loop_cons, ih, List.length_cons, List.append_assoc]
    have : (fun i => faults (i + ps.length + 1)) = (fun i => faults (i + (ps.length + 1))) := rfl
    simp only [this]

theorem loopBody_present (marshal : Proposal → Except Error String) (config : Config)
    (f : Faults) (p : Proposal) (db : Store) (k : String) (h : (db k).isSome) :
    ((loopBody marshal config f p db).1 k).isSome := by
  rcases loopBody_cases marshal config f p db with ⟨h1, _, _⟩ | ⟨js, _, _, _, h1, _, _⟩
  · rw [h1]; exact h
  · rw [h1]; by_cases hk : k = proposalKey p.ProposalID <;> simp [hk, h]

theorem loopBody_other (marshal : Proposal → Except Error String) (config : Config)
    (f : Faults) (p : Proposal) (db : Store) (k : String)
    (hk : k ≠ proposalKey p.ProposalID) :
    (loopBody marshal config f p db).1 k = db k := by
  rcases loopBody_cases marshal config f p db with ⟨h1, _, _⟩ | ⟨js, _, _, _, h1, _, _⟩
  · rw [h1]
  · rw [h1]; simp [hk]

/-- The loop never removes a key. -/
theorem loop_present (marshal : Proposal → Except Error String) (config : Config)
    (l : List Proposal) (faults : Nat → Faults) (db : Store) (k : String)
    (h : (db k).isSome) : ((loop marshal config faults l db).1 k).isSome := by
  induction l generalizing faults db with
  | nil => simpa [loop] using h
  | cons p ps ih =>
    rw [loop_cons]
    exact ih _ _ (loopBody_present marshal config (faults 0) p db k h)

/-- The loop leaves alone the key of an id that does not occur in the list. -/
theorem loop_other (marshal : Proposal → Except Error String) (config : Config)
    (l : List Proposal) (faults : Nat → Faults) (db : Store) (id : String)
    (h : ∀ q ∈ l, q.ProposalID ≠ id) :
    (loop marshal config faults l db).1 (proposalKey id) = db (proposalKey id) := by
  induction l generalizing faults db with
  | nil => simp [loop]
  | cons p ps ih =>
    rw [loop_cons]
    simp only
    rw [ih _ _ (fun q hq => h q (List.mem_cons_of_mem _ hq))]
    apply loopBody_other
    intro hk
    exact h p (List.mem_cons_self _ _) (proposalKey_inj hk).symm

theorem loopBody_count_present (marshal : Proposal → Except Error String) (config : Config)
    (f : Faults) (p : Proposal) (db : Store) (id : String)
    (h : (db (proposalKey id)).isSome) :
    notifiedCount (loopBody marshal config f p db).2 id = 0 := by
  rcases loopBody_cases marshal config f p db with ⟨_, h2, _⟩ | ⟨js, _, _, _, _, _, h2⟩
  · simp [notifiedCount, h2]
  · by_cases hid : p.ProposalID = id
    · subst hid
      simp [notifiedCount, h2, h]
    · by_cases hp : (db (proposalKey p.ProposalID)).isSome <;>
        simp [notifiedCount, h2, hp, hid]

/-- No notification carries an id whose key is already in the database. -/
theorem loop_count_present (marshal : Proposal → Except Error String) (config : Config)
    (l : List Proposal) (faults : Nat → Faults) (db : Store) (id : String)
    (h : (db (proposalKey id)).isSome) :
    notifiedCount (loop marshal config faults l db).2 id = 0 := by
  induction l generalizing faults db with
  | nil => simp [loop, notifiedCount, notifications]
  | cons p ps ih =>
    rw [loop_cons, notifiedCount_append, loopBody_count_present marshal config _ p db id h,
      ih _ _ (loopBody_present marshal config (faults 0) p db _ h)]

/-- At most one notification per proposal id. -/
theorem loop_count_le_one (marshal : Proposal → Except Error String) (config : Config)
    (l : List Proposal) (faults : Nat → Faults) (db : Store) (id : String) :
    notifiedCount (loop marshal config faults l db).2 id ≤ 1 := by
  induction l generalizing faults db with
  | nil => simp [loop, notifiedCount, notifications]
  | cons p ps ih =>
    rw [loop_cons, notifiedCount_append]
    rcases loopBody_cases marshal config (faults 0) p db with
      ⟨_, h2, _⟩ | ⟨js, _, _, _, h1, _, h2⟩
    · have h0 : notifiedCount (loopBody marshal config (faults 0) p db).2 id = 0 := by
        simp [notifiedCount, h2]
      rw [h0]
      simpa using ih _ _
    · by_cases hid : p.ProposalID = id
      · subst hid
        have hpres : ((loopBody marshal config (faults 0) p db).1
            (proposalKey p.ProposalID)).isSome := by
          rw [h1]; simp
        rw [loop_count_present marshal config ps _ _ _ hpres]
        by_cases hp : (db (proposalKey p.ProposalID)).isSome <;>
          simp [notifiedCount, h2, hp]
      · have h0 : notifiedCount (loopBody marshal config (faults 0) p db).2 id = 0 := by
          by_cases hp : (db (proposalKey p.ProposalID)).isSome <;>
            simp [notifiedCount, h2, hp, hid]
        rw [h0]
        simpa using ih _ _

/-- The notified proposals appear in the order of the list. -/
theorem loop_sublist (marshal : Proposal → Except Error String) (config : Config)
    (l : List Proposal) (faults : Nat → Faults) (db : Store) :
    List.Sublist (notifications (loop marshal config faults l db).2) l := by
  induction l generalizing faults db with
  | nil => simp [loop, notifications]
  | cons p ps ih =>
    rw [loop_cons, notifications_append]
    rcases loopBody_cases marshal config (faults 0) p db with
      ⟨_, h2, _⟩ | ⟨js, _, _, _, _, _, h2⟩
    · rw [h2]
      exact List.Sublist.cons _ (ih _ _)
    · by_cases hp : (db (proposalKey p.ProposalID)).isSome
      · rw [h2]; simp only [hp, if_true, List.nil_append]
        exact List.Sublist.cons _ (ih _ _)
      · rw [h2]; simp only [hp, Bool.false_eq_true, if_false, List.singleton_append]
        exact List.Sublist.cons₂ _ (ih _ _)

/-- A notified proposal has its key in the database at the end of the loop. -/
theorem loop_notified_present (marshal : Proposal → Except Error String) (config : Config)
    (l : List Proposal) (faults : Nat → Faults) (db : Store) (q : Proposal)
    (hq : q ∈ notifications (loop marshal config faults l db).2) :
    ((loop marshal config faults l db).1 (proposalKey q.ProposalID)).isSome := by
  induction l generalizing faults db with
  | nil => simp [loop, notifications] at hq
  | cons p ps ih =>
    rw [loop_cons, notifications_append, List.mem_append] at hq
    rw [loop_cons]
    rcases hq with hq | hq
    · apply loop_present
      rcases loopBody_cases marshal config (faults 0) p db with
        ⟨_, h2, _⟩ | ⟨js, _, _, _, h1, _, h2⟩
      · rw [h2] at hq; simp at hq
      · rw [h2] at hq
        by_cases hp : (db (proposalKey p.ProposalID)).isSome
        · simp [hp] at hq
        · simp [hp] at hq
          subst hq
          rw [h1]; simp
    · exact ih _ _ hq

/-! ## Lemmas on a loop whose store operations all succeed -/

theorem StoreOpsSucceed.head {marshal : Proposal → Except Error String}
    {faults : Nat → Faults} {p : Proposal} {ps : List Proposal}
    (h : StoreOpsSucceed marshal faults (p :: ps)) :
    (faults 0).existsErr = none ∧ (faults 0).setErr = none ∧ ∃ js, marshal p = .ok js :=
  ⟨(h.1 0 (by simp)).1, (h.1 0 (by simp)).2, h.2 p (List.mem_cons_self _ _)⟩

theorem StoreOpsSucceed.tail {marshal : Proposal → Except Error String}
    {faults : Nat → Faults} {p : Proposal} {ps : List Proposal}
    (h : StoreOpsSucceed marshal faults (p :: ps)) :
    StoreOpsSucceed marshal (fun i => faults (i + 1)) ps :=
  ⟨fun i hi => h.1 (i + 1) (by simpa using hi), fun q hq => h.2 q (List.mem_cons_of_mem _ hq)⟩

/-- With every store operation succeeding, an iteration stores the serialized proposal and
notifies it exactly when its key was absent. -/
theorem loopBody_ok (marshal : Proposal → Except Error String) (config : Config)
    (f : Faults) (p : Proposal) (db : Store) (js : String) (hE : f.existsErr = none)
    (hS : f.setErr = none) (hM : marshal p = .ok js) :
    (loopBody marshal config f p db).1 =
        (fun k => if k = proposalKey p.ProposalID then some js else db k) ∧
      Event.setCmd (proposalKey p.ProposalID) js none ∈ (loopBody marshal config f p db).2 ∧
      notifications (loopBody marshal config f p db).2 =
        if (db (proposalKey p.ProposalID)).isSome then [] else [p] := by
  rcases loopBody_cases marshal config f p db with ⟨_, _, h3⟩ | ⟨js1, hM1, _, _, h1, h2, h3⟩
  · exact absurd ⟨hE, hS, js, hM⟩ h3
  · rw [hM] at hM1
    cases hM1
    exact ⟨h1, h2, h3⟩

/-- New-proposal detection on the loop. -/
theorem loop_ok_new (marshal : Proposal → Except Error String) (config : Config)
    (l : List Proposal) (faults : Nat → Faults) (db : Store) (id : String)
    (hok : StoreOpsSucceed marshal faults l) (hmem : ∃ p ∈ l, p.ProposalID = id)
    (habs : db (proposalKey id) = none) :
    ((loop marshal config faults l db).1 (proposalKey id)).isSome ∧
      notifiedCount (loop marshal config faults l db).2 id = 1 := by
  induction l generalizing faults db with
  | nil => simp at hmem
  | cons q qs ih =>
    obtain ⟨hE, hS, js, hM⟩ := hok.head
    obtain ⟨h1, _, h3⟩ := loopBody_ok marshal config (faults 0) q db js hE hS hM
    rw [loop_cons, notifiedCount_append]
    by_cases hid : q.ProposalID = id
    · subst hid
      have hpres : ((loopBody marshal config (faults 0) q db).1
          (proposalKey q.ProposalID)).isSome := by
        rw [h1]; simp
      refine ⟨loop_present marshal config qs _ _ _ hpres, ?_⟩
      rw [loop_count_present marshal config qs _ _ _ hpres]
      simp [notifiedCount, h3, habs]
    · have hne : proposalKey id ≠ proposalKey q.ProposalID :=
        fun hk => hid (proposalKey_inj hk).symm
      have habs1 : (loopBody marshal config (faults 0) q db).1 (proposalKey id) = none := by
        rw [h1]; simp [hne, habs]
      have hmem1 : ∃ p ∈ qs, p.ProposalID = id := by
        obtain ⟨p, hp, hpid⟩ := hmem
        rcases List.mem_cons.mp hp with rfl | hp
        · exact absurd hpid hid
        · exact ⟨p, hp, hpid⟩
      obtain ⟨ih1, ih2⟩ := ih _ _ hok.tail hmem1 habs1
      refine ⟨ih1, ?_⟩
      rw [ih2]
      by_cases hp : (db (proposalKey q.ProposalID)).isSome <;>
        simp [notifiedCount, h3, hp, hid]

/-- Every fetched proposal is written. -/
theorem loop_ok_written (marshal : Proposal → Except Error String) (config : Config)
    (l : List Proposal) (faults : Nat → Faults) (db : Store)
    (hok : StoreOpsSucceed marshal faults l) (q : Proposal) (hq : q ∈ l) (js : String)
    (hjs : marshal q = .ok js) :
    Event.setCmd (proposalKey q.ProposalID) js none ∈ (loop marshal config faults l db).2 := by
  induction l generalizing faults db with
  | nil => simp at hq
  | cons p ps ih =>
    obtain ⟨hE, hS, _, _⟩ := hok.head
    rw [loop_cons, List.mem_append]
    rcases List.mem_cons.mp hq with rfl | hq
    · exact Or.inl (loopBody_ok marshal config (faults 0) q db js hE hS hjs).2.1
    · exact Or.inr (ih _ _ hok.tail hq)

theorem lastWithID_cons (id : String) (p : Proposal) (ps : List Proposal) :
    lastWithID id (p :: ps) =
      match lastWithID id ps with
      | some q => some q
      | none => if p.ProposalID = id then some p else none := by
  unfold lastWithID
  by_cases hid : p.ProposalID = id
  · simp only [List.filter_cons, hid, decide_True, if_true]
    cases hf : List.filter (fun p => decide (p.ProposalID = id)) ps with
    | nil => rfl
    | cons x xs =>
      rw [List.getLast?_cons_cons]
      cases h : (x :: xs).getLast? with
      | none => simp at h
      | some y => rfl
  · have hfilt : List.filter (fun p => decide (p.ProposalID = id)) (p :: ps) =
        List.filter (fun p => decide (p.ProposalID = id)) ps := by
      simp [List.filter_cons, hid]
    rw [hfilt]
    simp only [hid, if_false]
    generalize List.getLast? (List.filter (fun p => decide (p.ProposalID = id)) ps) = o
    cases o <;> rfl

theorem lastWithID_none (id : String) (l : List Proposal) (h : lastWithID id l = none) :
    ∀ q ∈ l, q.ProposalID ≠ id := by
  intro q hq hid
  unfold lastWithID at h
  rw [List.getLast?_eq_none_iff] at h
  have : q ∈ List.filter (fun p => decide (p.ProposalID = id)) l := by
    simp [List.mem_filter, hq, hid]
  rw [h] at this
  simp at this

/-- After the loop the database holds, for an id of the list, the serialization of the last
proposal of the list with that id. -/
theorem loop_ok_final (marshal : Proposal → Except Error String) (config : Config)
    (l : List Proposal) (faults : Nat → Faults) (db : Store) (id : String)
    (hok : StoreOpsSucceed marshal faults l) (q : Proposal) (hq : lastWithID id l = some q)
    (js : String) (hjs : marshal q = .ok js) :
    (loop marshal config faults l db).1 (proposalKey id) = some js := by
  induction l generalizing faults db with
  | nil => simp [lastWithID] at hq
  | cons p ps ih =>
    rw [loop_cons]
    rw [lastWithID_cons] at hq
    cases hl : lastWithID id ps with
    | some q1 =>
      rw [hl] at hq
      simp only [Option.some.injEq] at hq
      subst hq
      exact ih _ _ hok.tail hl
    | none =>
      rw [hl] at hq
      by_cases hid : p.ProposalID = id
      · simp only [hid, if_true, Option.some.injEq] at hq
        subst hq
        simp only
        rw [loop_other marshal config ps _ _ id (lastWithID_none id ps hl)]
        obtain ⟨hE, hS, _, _⟩ := hok.head
        rw [(loopBody_ok marshal config (faults 0) p db js hE hS hjs).1]
        simp [hid]
      · simp [hid] at hq

theorem lastWithID_mem (id : String) (l : List Proposal) (q : Proposal)
    (h : lastWithID id l = some q) : q ∈ l ∧ q.ProposalID = id := by
  unfold lastWithID at h
  have hq := List.mem_of_getLast?_eq_some h
  simpa [List.mem_filter] using hq

theorem lastWithID_of_mem (l : List Proposal) (p : Proposal) (hp : p ∈ l) :
    ∃ q, lastWithID p.ProposalID l = some q := by
  cases h : lastWithID p.ProposalID l with
  | some q => exact ⟨q, rfl⟩
  | none => exact absurd rfl (lastWithID_none p.ProposalID l h p hp)

/-! ## Lemmas on a cycle -/

theorem processProposals_ok (env : Env) (config : Config) (db : Store) (l : List Proposal)
    (hf : fetchProposals env.net config.API.URL = .ok l) :
    processProposals env config db =
      ((loop env.marshal config env.faults l db).1,
        Event.log "Call API" :: (loop env.marshal config env.faults l db).2) := by
  simp [processProposals, hf]

theorem processProposals_error (env : Env) (config : Config) (db : Store) (e : Error)
    (hf : fetchProposals env.net config.API.URL = .error e) :
    processProposals env config db =
      (db, [Event.log "Call API", Event.log ("Error fetching proposals: " ++ e)]) := by
  simp [processProposals, hf]

theorem notifications_log_cons (s : String) (t : List Event) :
    notifications (Event.log s :: t) = notifications t := by
  simp [notifications, Event.notified]

theorem notifiedCount_log_cons (s : String) (t : List Event) (id : String) :
    notifiedCount (Event.log s :: t) id = notifiedCount t id := by
  simp [notifiedCount, notifications_log_cons]

/-- The loop over `l`, cut at its iteration `i`. -/
theorem loop_split_at (marshal : Proposal → Except Error String) (config : Config)
    (faults : Nat → Faults) (l : List Proposal) (db : Store) (i : Nat) (p : Proposal)
    (hp : l[i]? = some p) :
    loop marshal config faults l db =
      ((loop marshal config (fun j => faults (j + (i + 1))) (l.drop (i + 1))
          (loopBody marshal config (faults i) p (storeBefore marshal config faults l db i)).1).1,
        (loop marshal config faults (l.take i) db).2 ++
          ((loopBody marshal config (faults i) p
              (storeBefore marshal config faults l db i)).2 ++
            (loop marshal config (fun j => faults (j + (i + 1))) (l.drop (i + 1))
              (loopBody marshal config (faults i) p
                (storeBefore marshal config faults l db i)).1).2)) := by
  obtain ⟨hi, hpi⟩ := List.getElem?_eq_some.mp hp
  have hl : l = l.take i ++ p :: l.drop (i + 1) := by
    rw [← hpi, ← List.drop_eq_getElem_cons hi, List.take_append_drop]
  have hlen : (l.take i).length = i := by
    rw [List.length_take]; omega
  conv_lhs => rw [hl]
  rw [loop_append, loop_cons, hlen]
  simp only [Nat.zero_add, storeBefore]
  have : (fun i_1 => faults (i_1 + 1 + i)) = (fun j => faults (j + (i + 1))) := by
    funext j; congr 1; omega
  simp only [this]

/-- The database before iteration `i + 1` is the one iteration `i` leaves. -/
theorem storeBefore_succ (marshal : Proposal → Except Error String) (config : Config)
    (faults : Nat → Faults) (l : List Proposal) (db : Store) (i : Nat) (p : Proposal)
    (hp : l[i]? = some p) :
    storeBefore marshal config faults l db (i + 1) =
      (loopBody marshal config (faults i) p (storeBefore marshal config faults l db i)).1 := by
  obtain ⟨hi, _⟩ := List.getElem?_eq_some.mp hp
  have hlen : (l.take i).length = i := by
    rw [List.length_take]; omega
  unfold storeBefore
  rw [List.take_succ, hp, Option.toList_some, loop_append, loop_cons, hlen]
  simp [loop]

/-! ## Lemmas on the program with lost replies -/

theorem lossy_loop_cons (marshal : Proposal → Except Error String) (config : Config)
    (outcomes : Nat → Lossy.Outcomes) (p : Proposal) (ps : List Proposal) (db : Store) :
    Lossy.loop marshal config outcomes (p :: ps) db =
      ((Lossy.loop marshal config (fun i => outcomes (i + 1)) ps
          (Lossy.loopBody marshal config (outcomes 0) p db).1).1,
        (Lossy.loopBody marshal config (outcomes 0) p db).2 ++
          (Lossy.loop marshal config (fun i => outcomes (i + 1)) ps
            (Lossy.loopBody marshal config (outcomes 0) p db).1).2) := rfl

/-- With no failed write applied, the program on a Redis whose replies can be lost is the
program of the first model. -/
theorem lossy_loop_ofFaults (marshal : Proposal → Except Error String) (config : Config)
    (l : List Proposal) (faults : Nat → Faults) (db : Store) :
    Lossy.loop marshal config (fun i => Lossy.ofFaults (faults i)) l db =
      loop marshal config faults l db := by
  induction l generalizing faults db with
  | nil => rfl
  | cons p ps ih =>
    have hb : Lossy.loopBody marshal config (Lossy.ofFaults (faults 0)) p db =
        loopBody marshal config (faults 0) p db := by
      simp [Lossy.loopBody, loopBody, Lossy.storeProposal, storeProposal, Lossy.rdbSet, rdbSet,
        Lossy.ofFaults]
    rw [lossy_loop_cons, loop_cons, hb]
    have := ih (fun i => faults (i + 1)) (loopBody marshal config (faults 0) p db).1
    simp only [this]

/-! ## The claims -/

/-- C1, as stated, fails: in the cycle over the single proposal 1 on an empty database, with
`rdb.Set` failing, the existence check of proposal 1 returns 0 (key absent), and yet the
cycle sends no notification. -/
theorem notify_iff_absent_counterexample :
    rdbExists emptyStore (setFailsFirst 0).existsErr (proposalKey proposalOne.ProposalID) =
        .ok 0 ∧
      (processProposals (sampleEnv [proposalOne] setFailsFirst) sampleConfig emptyStore).2 =
        [Event.log "Call API", Event.existsCmd "proposal:1" (.ok 0),
          Event.setCmd "proposal:1"
            "\x7b\"proposal_id\":\"1\",\"content\":\x7b\"title\":\"T1\",\"description\":\"D1\"\x7d\x7d"
            (some "i/o timeout"),
          Event.log "Error storing proposal: i/o timeout"] ∧
      notifications
        (processProposals (sampleEnv [proposalOne] setFailsFirst) sampleConfig emptyStore).2 =
        [] := by
  refine ⟨rfl, rfl, rfl⟩

/-- C1, amended: in one cycle of `processProposals`, whatever the database, the fetched list
and the outcomes of the store operations, iteration `i` of the loop (the trace of the cycle
is the `Call API` line, the events of the iterations before `i`, those of iteration `i` and
those of the iterations after it) sends a notification for its proposal if and only if the
existence check made before the write returned 0 (key absent) and the write that follows it
succeeded; otherwise it sends none. -/
theorem notify_iff_absent_and_written (env : Env) (config : Config) (db : Store)
    (l : List Proposal) (hf : fetchProposals env.net config.API.URL = .ok l) (i : Nat)
    (p : Proposal) (hp : l[i]? = some p) :
    (processProposals env config db).2 =
        Event.log "Call API" :: ((loop env.marshal config env.faults (l.take i) db).2 ++
          ((loopBody env.marshal config (env.faults i) p
              (storeBefore env.marshal config env.faults l db i)).2 ++
            (loop env.marshal config (fun j => env.faults (j + (i + 1))) (l.drop (i + 1))
              (loopBody env.marshal config (env.faults i) p
                (storeBefore env.marshal config env.faults l db i)).1).2)) ∧
      (notifications (loopBody env.marshal config (env.faults i) p
          (storeBefore env.marshal config env.faults l db i)).2 = [p] ↔
        (rdbExists (storeBefore env.marshal config env.faults l db i) (env.faults i).existsErr
            (proposalKey p.ProposalID) = .ok 0 ∧
          (storeProposal env.marshal (storeBefore env.marshal config env.faults l db i)
            (env.faults i).setErr (proposalKey p.ProposalID) p).1 = none)) ∧
      (notifications (loopBody env.marshal config (env.faults i) p
          (storeBefore env.marshal config env.faults l db i)).2 = [] ↔
        ¬ (rdbExists (storeBefore env.marshal config env.faults l db i) (env.faults i).existsErr
            (proposalKey p.ProposalID) = .ok 0 ∧
          (storeProposal env.marshal (storeBefore env.marshal config env.faults l db i)
            (env.faults i).setErr (proposalKey p.ProposalID) p).1 = none)) := by
  refine ⟨?_, ?_⟩
  · rw [processProposals_ok env config db l hf,
      loop_split_at env.marshal config env.faults l db i p hp]
  · generalize storeBefore env.marshal config env.faults l db i = dbi
    generalize env.faults i = f
    have hcond : (rdbExists dbi f.existsErr (proposalKey p.ProposalID) = .ok 0 ∧
        (storeProposal env.marshal dbi f.setErr (proposalKey p.ProposalID) p).1 = none) ↔
        (f.existsErr = none ∧ f.setErr = none ∧ (∃ js, env.marshal p = .ok js) ∧
          dbi (proposalKey p.ProposalID) = none) := by
      cases hE : f.existsErr <;> cases hS : f.setErr <;> cases hM : env.marshal p <;>
        cases hD : dbi (proposalKey p.ProposalID) <;>
        simp [rdbExists, storeProposal, rdbSet, hM, hD]
    rw [hcond]
    rcases loopBody_cases env.marshal config f p dbi with
      ⟨_, h2, h3⟩ | ⟨js, hM, hE, hS, _, _, h2⟩
    · rw [h2]
      constructor
      · constructor
        · intro h; cases h
        · rintro ⟨hE, hS, hM, _⟩; exact absurd ⟨hE, hS, hM⟩ h3
      · constructor
        · rintro _ ⟨hE, hS, hM, _⟩; exact h3 ⟨hE, hS, hM⟩
        · intro _; rfl
    · rw [h2]
      cases hD : dbi (proposalKey p.ProposalID) with
      | none => simp [hE, hS, hM]
      | some v => simp [hE, hS, hM]

/-- Witness of C1 amended: the second iteration of a cycle over two proposals. -/
theorem notify_iff_absent_and_written_witness :
    (notifications (loopBody sampleMarshal sampleConfig (neverFails 1) proposalTwo
        (storeBefore sampleMarshal sampleConfig neverFails [proposalOne, proposalTwo]
          emptyStore 1)).2 = [proposalTwo] ↔
      (rdbExists (storeBefore sampleMarshal sampleConfig neverFails [proposalOne, proposalTwo]
            emptyStore 1) (neverFails 1).existsErr (proposalKey proposalTwo.ProposalID) = .ok 0 ∧
        (storeProposal sampleMarshal (storeBefore sampleMarshal sampleConfig neverFails
            [proposalOne, proposalTwo] emptyStore 1)
          (neverFails 1).setErr (proposalKey proposalTwo.ProposalID) proposalTwo).1 = none)) ∧
      notifications (loopBody sampleMarshal sampleConfig (neverFails 1) proposalTwo
        (storeBefore sampleMarshal sampleConfig neverFails [proposalOne, proposalTwo]
          emptyStore 1)).2 = [proposalTwo] :=
  ⟨(notify_iff_absent_and_written (sampleEnv [proposalOne, proposalTwo] neverFails)
      sampleConfig emptyStore [proposalOne, proposalTwo] rfl 1 proposalTwo rfl).2.1, by decide⟩

/-- C2: new-proposal detection. When the fetch returns the list `l` and every store
operation of the cycle succeeds, every proposal `p` of `l` whose key was absent from the
database before the cycle has its key present after it, and exactly one notification
carrying its proposal id was sent during the cycle, however many entries of `l` have that
id. -/
theorem new_proposal_detection (env : Env) (config : Config) (db : Store) (l : List Proposal)
    (hf : fetchProposals env.net config.API.URL = .ok l)
    (hok : StoreOpsSucceed env.marshal env.faults l) (p : Proposal) (hp : p ∈ l)
    (habs : db (proposalKey p.ProposalID) = none) :
    ((processProposals env config db).1 (proposalKey p.ProposalID)).isSome ∧
      notifiedCount (processProposals env config db).2 p.ProposalID = 1 := by
  rw [processProposals_ok env config db l hf, notifiedCount_log_cons]
  exact loop_ok_new env.marshal config l env.faults db p.ProposalID hok ⟨p, hp, rfl⟩ habs

/-- Witness of C2: a feed with two entries for proposal 1 and one for proposal 2. -/
theorem new_proposal_detection_witness :
    ((processProposals (sampleEnv [proposalOne, proposalTwo, proposalOneEdited] neverFails)
        sampleConfig emptyStore).1 (proposalKey proposalOneEdited.ProposalID)).isSome ∧
      notifiedCount (processProposals (sampleEnv [proposalOne, proposalTwo, proposalOneEdited]
        neverFails) sampleConfig emptyStore).2 proposalOneEdited.ProposalID = 1 :=
  new_proposal_detection (sampleEnv [proposalOne, proposalTwo, proposalOneEdited] neverFails)
    sampleConfig emptyStore [proposalOne, proposalTwo, proposalOneEdited] rfl
    ⟨fun _ _ => ⟨rfl, rfl⟩, fun p _ => ⟨_, rfl⟩⟩ proposalOneEdited (by decide) rfl

/-- C3: the store write is unconditional. When the fetch returns the list `l` and every store
operation of the cycle succeeds, every proposal of `l` is written (a successful `rdb.Set` of
its serialization under its key is in the trace) whether or not its key existed, and after
the cycle the database holds, under the key of every proposal id occurring in `l`, the
serialization of the last proposal of `l` with that id. -/
theorem store_write_unconditional (env : Env) (config : Config) (db : Store)
    (l : List Proposal) (hf : fetchProposals env.net config.API.URL = .ok l)
    (hok : StoreOpsSucceed env.marshal env.faults l) (p : Proposal) (hp : p ∈ l) :
    (∃ js, env.marshal p = .ok js ∧
        Event.setCmd (proposalKey p.ProposalID) js none ∈ (processProposals env config db).2) ∧
      ∃ q js, lastWithID p.ProposalID l = some q ∧ env.marshal q = .ok js ∧
        (processProposals env config db).1 (proposalKey p.ProposalID) = some js := by
  rw [processProposals_ok env config db l hf]
  constructor
  · obtain ⟨js, hjs⟩ := hok.2 p hp
    exact ⟨js, hjs, List.mem_cons_of_mem _
      (loop_ok_written env.marshal config l env.faults db hok p hp js hjs)⟩
  · obtain ⟨q, hq⟩ := lastWithID_of_mem l p hp
    obtain ⟨js, hjs⟩ := hok.2 q (lastWithID_mem _ l q hq).1
    exact ⟨q, js, hq, hjs,
      loop_ok_final env.marshal config l env.faults db p.ProposalID hok q hq js hjs⟩

/-- Witness of C3: proposal 1 is already stored, and the feed lists it twice. -/
theorem store_write_unconditional_witness :
    (∃ js, sampleMarshal proposalOne = .ok js ∧
        Event.setCmd (proposalKey proposalOne.ProposalID) js none ∈
          (processProposals (sampleEnv [proposalOne, proposalTwo, proposalOneEdited] neverFails)
            sampleConfig (fun k => if k = "proposal:1" then some "old" else none)).2) ∧
      ∃ q js, lastWithID proposalOne.ProposalID [proposalOne, proposalTwo, proposalOneEdited] =
          some q ∧ sampleMarshal q = .ok js ∧
        (processProposals (sampleEnv [proposalOne, proposalTwo, proposalOneEdited] neverFails)
          sampleConfig (fun k => if k = "proposal:1" then some "old" else none)).1
            (proposalKey proposalOne.ProposalID) = some js :=
  store_write_unconditional (sampleEnv [proposalOne, proposalTwo, proposalOneEdited] neverFails)
    sampleConfig (fun k => if k = "proposal:1" then some "old" else none)
    [proposalOne, proposalTwo, proposalOneEdited] rfl
    ⟨fun _ _ => ⟨rfl, rfl⟩, fun p _ => ⟨_, rfl⟩⟩ proposalOne (by decide)

/-- C4: a fetch failure aborts the cycle cleanly. When `fetchProposals` returns an error,
`processProposals` returns with the database exactly as it was and a trace made of its two
log lines only: no existence check, no write, no notification. -/
theorem fetch_failure_aborts (env : Env) (config : Config) (db : Store) (e : Error)
    (hf : fetchProposals env.net config.API.URL = .error e) :
    processProposals env config db =
        (db, [Event.log "Call API", Event.log ("Error fetching proposals: " ++ e)]) ∧
      (∀ ev ∈ (processProposals env config db).2, ev.isClientCall = false) ∧
      notifications (processProposals env config db).2 = [] := by
  rw [processProposals_error env config db e hf]
  refine ⟨rfl, ?_, rfl⟩
  intro ev hev
  simp only [List.mem_cons, List.mem_singleton, List.not_mem_nil, or_false] at hev
  rcases hev with rfl | rfl <;> rfl

/-- Witness of C4: the feed cannot be reached. -/
theorem fetch_failure_aborts_witness :
    processProposals unreachableEnv sampleConfig emptyStore =
        (emptyStore, [Event.log "Call API",
          Event.log ("Error fetching proposals: " ++ "connection refused")]) ∧
      notifications (processProposals unreachableEnv sampleConfig emptyStore).2 = [] :=
  have h := fetch_failure_aborts unreachableEnv sampleConfig emptyStore "connection refused" rfl
  ⟨h.1, h.2.2⟩

/-- C8: notification order. When the fetch returns the list `l`, whatever the database and the
outcomes of the store operations, the proposals notified during the cycle, in the order of
their notifications, form a subsequence of `l`. -/
theorem notification_order (env : Env) (config : Config) (db : Store) (l : List Proposal)
    (hf : fetchProposals env.net config.API.URL = .ok l) :
    List.Sublist (notifications (processProposals env config db).2) l := by
  rw [processProposals_ok env config db l hf, notifications_log_cons]
  exact loop_sublist env.marshal config l env.faults db

/-- Witness of C8: the existence check of the first of three proposals fails. -/
theorem notification_order_witness :
    List.Sublist
      (notifications (processProposals
        (sampleEnv [proposalOne, proposalTwo, proposalOneEdited] existsFailsFirst)
        sampleConfig emptyStore).2)
      [proposalOne, proposalTwo, proposalOneEdited] :=
  notification_order (sampleEnv [proposalOne, proposalTwo, proposalOneEdited] existsFailsFirst)
    sampleConfig emptyStore [proposalOne, proposalTwo, proposalOneEdited] rfl

/-- C10: at most once per cycle under any failure pattern. With an existence check that, when
it succeeds, reports the database truthfully (`rdbExists`) and a write that, when it fails,
leaves the database unchanged (`rdbSet`): whatever the database, the outcome of the fetch
and the outcomes of the store and notifier calls, one cycle sends at most one notification
per proposal id, and none for a proposal id whose key was in the database before the
cycle. -/
theorem at_most_once_per_cycle (env : Env) (config : Config) (db : Store) (id : String) :
    notifiedCount (processProposals env config db).2 id ≤ 1 ∧
      ((db (proposalKey id)).isSome →
        notifiedCount (processProposals env config db).2 id = 0) := by
  cases hf : fetchProposals env.net config.API.URL with
  | error e =>
    rw [processProposals_error env config db e hf]
    simp [notifiedCount, notifications, Event.notified]
  | ok l =>
    rw [processProposals_ok env config db l hf, notifiedCount_log_cons]
    exact ⟨loop_count_le_one env.marshal config l env.faults db id,
      loop_count_present env.marshal config l env.faults db id⟩

/-- Witness of C10: proposal 1 is already stored, and the feed lists it twice. -/
theorem at_most_once_per_cycle_witness :
    ((fun k => if k = "proposal:1" then some "old" else none : Store)
        (proposalKey "1")).isSome ∧
      notifiedCount (processProposals
        (sampleEnv [proposalOne, proposalTwo, proposalOneEdited] setFailsFirst) sampleConfig
        (fun k => if k = "proposal:1" then some "old" else none)).2 "1" = 0 :=
  ⟨by decide, (at_most_once_per_cycle
    (sampleEnv [proposalOne, proposalTwo, proposalOneEdited] setFailsFirst) sampleConfig
    (fun k => if k = "proposal:1" then some "old" else none) "1").2 (by decide)⟩

/-- C6: idempotent re-fetch. From a database without the key of the id `id`, two successive
cycles whose fetched lists both hold a proposal with that id, every store operation
succeeding, send exactly one notification for `id` in total: one in the first cycle and none
in the second; and the database then holds, under the key of `id`, the serialization of the
last proposal with that id in the second list. -/
theorem idempotent_refetch (env1 env2 : Env) (config : Config) (db : Store)
    (l1 l2 : List Proposal) (id : String)
    (hf1 : fetchProposals env1.net config.API.URL = .ok l1)
    (hok1 : StoreOpsSucceed env1.marshal env1.faults l1)
    (hmem1 : ∃ p ∈ l1, p.ProposalID = id) (habs : db (proposalKey id) = none)
    (hf2 : fetchProposals env2.net config.API.URL = .ok l2)
    (hok2 : StoreOpsSucceed env2.marshal env2.faults l2)
    (q : Proposal) (hq : lastWithID id l2 = some q) (js : String)
    (hjs : env2.marshal q = .ok js) :
    notifiedCount (processProposals env1 config db).2 id = 1 ∧
      notifiedCount (processProposals env2 config (processProposals env1 config db).1).2 id =
        0 ∧
      notifiedCount ((processProposals env1 config db).2 ++
        (processProposals env2 config (processProposals env1 config db).1).2) id = 1 ∧
      (processProposals env2 config (processProposals env1 config db).1).1 (proposalKey id) =
        some js := by
  have h1 := loop_ok_new env1.marshal config l1 env1.faults db id hok1 hmem1 habs
  have hc1 : notifiedCount (processProposals env1 config db).2 id = 1 := by
    rw [processProposals_ok env1 config db l1 hf1, notifiedCount_log_cons]
    exact h1.2
  have hc2 : notifiedCount
      (processProposals env2 config (processProposals env1 config db).1).2 id = 0 := by
    rw [processProposals_ok env2 config _ l2 hf2, notifiedCount_log_cons]
    apply loop_count_present
    rw [processProposals_ok env1 config db l1 hf1]
    exact h1.1
  refine ⟨hc1, hc2, ?_, ?_⟩
  · rw [notifiedCount_append, hc1, hc2]
  · rw [processProposals_ok env2 config _ l2 hf2]
    exact loop_ok_final env2.marshal config l2 env2.faults _ id hok2 q hq js hjs

/-- Witness of C6: proposal 1, then proposal 1 with an edited description. -/
theorem idempotent_refetch_witness :
    notifiedCount (processProposals (sampleEnv [proposalOne] neverFails) sampleConfig
        emptyStore).2 "1" = 1 ∧
      notifiedCount (processProposals (sampleEnv [proposalOneEdited] neverFails) sampleConfig
        (processProposals (sampleEnv [proposalOne] neverFails) sampleConfig emptyStore).1).2
        "1" = 0 ∧
      notifiedCount ((processProposals (sampleEnv [proposalOne] neverFails) sampleConfig
        emptyStore).2 ++
        (processProposals (sampleEnv [proposalOneEdited] neverFails) sampleConfig
          (processProposals (sampleEnv [proposalOne] neverFails) sampleConfig emptyStore).1).2)
        "1" = 1 ∧
      (processProposals (sampleEnv [proposalOneEdited] neverFails) sampleConfig
        (processProposals (sampleEnv [proposalOne] neverFails) sampleConfig emptyStore).1).1
        (proposalKey "1") =
        some "\x7b\"proposal_id\":\"1\",\"content\":\x7b\"title\":\"T1\",\"description\":\"D2\"\x7d\x7d" :=
  idempotent_refetch (sampleEnv [proposalOne] neverFails)
    (sampleEnv [proposalOneEdited] neverFails) sampleConfig emptyStore [proposalOne]
    [proposalOneEdited] "1" rfl ⟨fun _ _ => ⟨rfl, rfl⟩, fun p _ => ⟨_, rfl⟩⟩
    ⟨proposalOne, by decide, rfl⟩ rfl rfl ⟨fun _ _ => ⟨rfl, rfl⟩, fun p _ => ⟨_, rfl⟩⟩
    proposalOneEdited (by decide) _ rfl

/-- C7, as stated, fails: for a proposal whose id ends in a line feed the text sent ends in a
line feed. -/
theorem notification_format_counterexample :
    sendTelegramNotification none 42 ⟨"1\n", ⟨"T1", "D1"⟩⟩ "https://explorer.example/proposal" =
        [Event.sendMsg ⟨"1\n", ⟨"T1", "D1"⟩⟩ 42
          "New Proposal:\nID: 1\n\nTitle: T1\nDescription: D1\nExplorer: https://explorer.example/proposal/1\n"
          none] ∧
      (notificationText ⟨"1\n", ⟨"T1", "D1"⟩⟩ "https://explorer.example/proposal").data.getLast? =
        some (Char.ofNat 10) := by
  refine ⟨rfl, by decide⟩

/-- C7, amended: for every proposal `p` and explorer base URL `u`, the text that
`sendTelegramNotification` sends is exactly `"New Proposal:\nID: "`, the id, `"\nTitle: "`,
the title, `"\nDescription: "`, the description, `"\nExplorer: "`, `u`, `"/"` and the id
again; it ends with the explorer link `u ++ "/" ++ id`, nothing following it; and its last
character is not a line feed unless the id itself ends in one. -/
theorem notification_format (sendFault : Option Error) (chatID : Int) (p : Proposal)
    (u : String) :
    (∃ rest, sendTelegramNotification sendFault chatID p u =
        Event.sendMsg p chatID
          ("New Proposal:\nID: " ++ p.ProposalID ++ "\nTitle: " ++ p.Content.Title ++
            "\nDescription: " ++ p.Content.Description ++ "\nExplorer: " ++ u ++ "/" ++
            p.ProposalID) sendFault :: rest) ∧
      notificationText p u =
        ("New Proposal:\nID: " ++ p.ProposalID ++ "\nTitle: " ++ p.Content.Title ++
          "\nDescription: " ++ p.Content.Description ++ "\nExplorer: ") ++
          (u ++ "/" ++ p.ProposalID) ∧
      (p.ProposalID.data.getLast? ≠ some (Char.ofNat 10) →
        (notificationText p u).data.getLast? ≠ some (Char.ofNat 10)) := by
  refine ⟨?_, ?_, ?_⟩
  · cases sendFault <;> simp [sendTelegramNotification, notificationText]
  · simp [notificationText, String.append_assoc]
  · intro h
    have hd : (notificationText p u).data =
        ("New Proposal:\nID: " ++ p.ProposalID ++ "\nTitle: " ++ p.Content.Title ++
          "\nDescription: " ++ p.Content.Description ++ "\nExplorer: " ++ u).data ++
          ('/' :: p.ProposalID.data) := by
      simp [notificationText, String.data_append]
    rw [hd]
    cases hid : p.ProposalID.data with
    | nil =>
      rw [List.getLast?_concat]
      decide
    | cons c cs =>
      rw [hid] at h
      rw [List.getLast?_append, List.getLast?_cons_cons]
      cases hl : (c :: cs).getLast? with
      | none => simp at hl
      | some x =>
        rw [hl] at h
        simpa using h

/-- Witness of C7 amended: proposal 1. -/
theorem notification_format_witness :
    proposalOne.ProposalID.data.getLast? ≠ some (Char.ofNat 10) ∧
      (notificationText proposalOne "https://explorer.example/proposal").data.getLast? ≠
        some (Char.ofNat 10) :=
  ⟨by decide, (notification_format none 42 proposalOne
    "https://explorer.example/proposal").2.2 (by decide)⟩

/-- C9: a store error suppresses the notification. In a cycle over the fetched list `l`: an
iteration whose existence check fails only logs the error, so its proposal is neither
written nor notified; an iteration whose existence check finds the key absent and whose
write fails sends no notification and leaves the database as it was, the key still absent;
and every proposal notified in the cycle has its key in the database at the end of the
cycle. -/
theorem store_error_suppresses_notification (env : Env) (config : Config) (db : Store)
    (l : List Proposal) (hf : fetchProposals env.net config.API.URL = .ok l) :
    (∀ i p e, l[i]? = some p → (env.faults i).existsErr = some e →
        loopBody env.marshal config (env.faults i) p
            (storeBefore env.marshal config env.faults l db i) =
          (storeBefore env.marshal config env.faults l db i,
            [Event.existsCmd (proposalKey p.ProposalID) (.error e),
              Event.log ("Error checking Redis: " ++ e)]) ∧
        storeBefore env.marshal config env.faults l db (i + 1) =
          storeBefore env.marshal config env.faults l db i) ∧
      (∀ i p, l[i]? = some p → (env.faults i).existsErr = none →
        storeBefore env.marshal config env.faults l db i (proposalKey p.ProposalID) = none →
        (storeProposal env.marshal (storeBefore env.marshal config env.faults l db i)
          (env.faults i).setErr (proposalKey p.ProposalID) p).1 ≠ none →
        notifications (loopBody env.marshal config (env.faults i) p
            (storeBefore env.marshal config env.faults l db i)).2 = [] ∧
          storeBefore env.marshal config env.faults l db (i + 1) =
            storeBefore env.marshal config env.faults l db i ∧
          storeBefore env.marshal config env.faults l db (i + 1)
            (proposalKey p.ProposalID) = none) ∧
      (∀ q ∈ notifications (processProposals env config db).2,
        ((processProposals env config db).1 (proposalKey q.ProposalID)).isSome) := by
  refine ⟨?_, ?_, ?_⟩
  · intro i p e hp hE
    rw [storeBefore_succ env.marshal config env.faults l db i p hp,
      loopBody_existsErr env.marshal config (env.faults i) p _ e hE]
    exact ⟨rfl, rfl⟩
  · intro i p hp hE hD hW
    rw [storeBefore_succ env.marshal config env.faults l db i p hp]
    rcases loopBody_cases env.marshal config (env.faults i) p
      (storeBefore env.marshal config env.faults l db i) with
      ⟨e1, e2, _⟩ | ⟨js, hM, _, hS, _, _, _⟩
    · exact ⟨e2, e1, by rw [e1]; exact hD⟩
    · exact absurd (by simp [storeProposal, hM, rdbSet, hS]) hW
  · rw [processProposals_ok env config db l hf, notifications_log_cons]
    intro q hq
    exact loop_notified_present env.marshal config l env.faults db q hq

/-- Witness of C9: the write of proposal 1 fails on an empty database, proposal 2 follows. -/
theorem store_error_suppresses_notification_witness :
    notifications (loopBody sampleMarshal sampleConfig (setFailsFirst 0) proposalOne
        (storeBefore sampleMarshal sampleConfig setFailsFirst [proposalOne, proposalTwo]
          emptyStore 0)).2 = [] ∧
      storeBefore sampleMarshal sampleConfig setFailsFirst [proposalOne, proposalTwo]
        emptyStore 1 (proposalKey proposalOne.ProposalID) = none ∧
      ((processProposals (sampleEnv [proposalOne, proposalTwo] setFailsFirst) sampleConfig
        emptyStore).1 (proposalKey proposalTwo.ProposalID)).isSome :=
  have h := store_error_suppresses_notification
    (sampleEnv [proposalOne, proposalTwo] setFailsFirst) sampleConfig emptyStore
    [proposalOne, proposalTwo] rfl
  have h2 := h.2.1 0 proposalOne rfl rfl rfl (by decide)
  ⟨h2.1, h2.2.2, h.2.2 proposalTwo (by decide)⟩

end ProposalBot
